import Mathlib

/-!
Verification development for a user-space device manager (udev-like daemon)
written in Rust.  The source components embedded here:

* `src/monitor.rs`    — netlink uevent datagram decoding (`receive_event`)
* `src/device.rs`     — typed device record construction (`UEventDevice::from_event`)
* `src/rules/matcher.rs` — the `Rule` data model and `Rule::matches`
* `src/rules/parser.rs`  — rule-file parsing and file ordering (`parse_rules_file`)
* `src/actions.rs` and `src/udevd.rs` — the action executor and the per-event
  worker (`execute_rule_actions`, `process_event`)
* `src/libudev.rs`    — the query command (`get_device_info`)

Modelling conventions.  Rust `String`/`&str` values are Lean `String`s, but all
string manipulation is implemented structurally over `List Char` so that every
definition reduces in the kernel.  Rust `HashMap<String, V>` values are
association lists `List (String × V)`; only lookup and override-insert are used
by the source, so the embedding provides exactly those.  Machine integers are
`Nat` with explicit bounds where the source parses `u32`/`u64`.  Filesystem and
socket effects are made explicit: the matcher takes the sysfs reader as a
function argument, the action executor acts on an explicit filesystem value,
and the query tool takes a record of the OS facilities it consults.
-/

namespace RustUdev

/-! ## Character-list string primitives -/

/-- Splits a character list at every character satisfying `p`, keeping empty
segments, mirroring Rust `str::split` with a char-class pattern. -/
def splitOnP (p : Char → Bool) (cs : List Char) : List (List Char) :=
  cs.foldr
    (fun x acc =>
      match acc with
      | [] => [[x]]
      | h :: t => if p x then [] :: h :: t else (x :: h) :: t)
    [[]]

/-- Splits at every occurrence of the character `c` (Rust `str::split(c)`). -/
def splitOnChar (c : Char) (cs : List Char) : List (List Char) :=
  splitOnP (fun x => x = c) cs

/-- Rust `str::split_once(c)`: the text before and after the first occurrence
of `c`, or `none` when `c` does not occur. -/
def splitOncePair (c : Char) : List Char → Option (List Char × List Char)
  | [] => none
  | x :: xs =>
    if x = c then some ([], xs)
    else (splitOncePair c xs).map (fun pr => (x :: pr.1, pr.2))

/-- Whitespace trim from both ends (Rust `str::trim`). -/
def trimChars (cs : List Char) : List Char :=
  ((cs.dropWhile Char.isWhitespace).reverse.dropWhile Char.isWhitespace).reverse

/-- String wrapper for `trimChars`. -/
def trimStr (s : String) : String := ⟨trimChars s.data⟩

/-- Lower-casing a string character by character (Rust `str::to_lowercase`
restricted to the ASCII range, which is all the source compares). -/
def toLowerStr (s : String) : String := ⟨s.data.map Char.toLower⟩

/-- Value of a digit run, most significant first. -/
def digitsVal (cs : List Char) : Nat :=
  cs.foldl (fun acc c => 10 * acc + (c.toNat - 48)) 0

/-- Rust `str::parse` for an unsigned integer type whose exclusive bound is
`bound`: an optional leading plus sign, then one or more decimal digits, and
the value must fit (otherwise the parse errors, hence `none`). -/
def rustParseNat (bound : Nat) (s : String) : Option Nat :=
  let cs := match s.data with
    | '+' :: rest => rest
    | cs => cs
  if cs ≠ [] ∧ cs.all Char.isDigit ∧ digitsVal cs < bound then some (digitsVal cs) else none

/-- Decimal rendering of a natural number (Rust `u64::to_string` and friends). -/
def natToStr (n : Nat) : String := ⟨Nat.toDigits 10 n⟩

/-- Prefix test on strings, structurally (Rust `str::starts_with`). -/
def startsWithStr (s pre : String) : Bool := pre.data.isPrefixOf s.data

/-- Fuelled worker for `stripFrontAll`; each step removes at least one
character, so fuel equal to the subject length is enough. -/
def stripFrontAllGo (fuel : Nat) (pat cs : List Char) : List Char :=
  match fuel with
  | 0 => cs
  | fuel + 1 =>
    if pat ≠ [] ∧ pat.isPrefixOf cs then stripFrontAllGo fuel pat (cs.drop pat.length)
    else cs

/-- Rust `str::trim_start_matches(pat)`: repeatedly removes the pattern from
the front while it is present. -/
def stripFrontAll (pat : List Char) (cs : List Char) : List Char :=
  stripFrontAllGo cs.length pat cs

/-- Rust `str::trim_end_matches(c)`: removes every trailing occurrence of `c`. -/
def stripBackAll (c : Char) (cs : List Char) : List Char :=
  (cs.reverse.dropWhile (fun x => x = c)).reverse

/-- Rust `str::replace(pat, rep)`: replaces every non-overlapping occurrence of
`pat`, scanning left to right.  `fuel` bounds the recursion; it is instantiated
with the length of the subject, which suffices because every step consumes at
least one character when the pattern is non-empty. -/
def replaceGo (fuel : Nat) (pat rep cs : List Char) : List Char :=
  match fuel with
  | 0 => cs
  | fuel + 1 =>
    match cs with
    | [] => []
    | x :: xs =>
      if pat.isPrefixOf (x :: xs) then
        rep ++ replaceGo fuel pat rep ((x :: xs).drop pat.length)
      else
        x :: replaceGo fuel pat rep xs

/-- String wrapper for `replaceGo`; the empty pattern is never passed by the
source (the substitution patterns all have at least two characters). -/
def replaceStr (s pat rep : String) : String :=
  if pat.data = [] then s else ⟨replaceGo s.data.length pat.data rep.data s.data⟩

/-! ## Association-list maps (Rust `HashMap<String, V>` as used by the source) -/

/-- Lookup by key (Rust `HashMap::get`). -/
def lookupA {α : Type} (m : List (String × α)) (k : String) : Option α :=
  (m.find? (fun e => e.1 = k)).map (fun e => e.2)

/-- Override insert (Rust `HashMap::insert`): the new binding shadows any
previous binding of the same key. -/
def mapInsert {α : Type} (m : List (String × α)) (k : String) (v : α) : List (String × α) :=
  (k, v) :: m.filter (fun e => !(e.1 = k))

/-- Lookup specialised to string values (the event property map). -/
def findProp (m : List (String × String)) (k : String) : Option String := lookupA m k

/-! ## Event ingestor (`src/monitor.rs`, `UEventMonitor::receive_event`)

The datagram payload (after the lossy UTF-8 conversion the source performs) is
split on NUL bytes; each field containing an equals sign is inserted into the
property map with the text before the first `=` as key and the text after it
as value; every other field is ignored. -/

/-- The NUL separator used by the kernel uevent wire format. -/
def nulChar : Char := Char.ofNat 0

/-- One decoding step of the receive loop body. -/
def decodeStep (m : List (String × String)) (field : List Char) : List (String × String) :=
  match splitOncePair '=' field with
  | some (k, v) => mapInsert m ⟨k⟩ ⟨v⟩
  | none => m

/-- The property map decoded from one datagram payload. -/
def decodeEvent (payload : String) : List (String × String) :=
  (splitOnChar nulChar payload.data).foldl decodeStep []

/-- Direct value-level characterisation of the decoded map, written from the
specification sentence: scanning the NUL-separated fields, the value of key
`k` is the one carried by the last `k=`-field, and fields without `=` carry
nothing.  Compared against `decodeEvent` in the C5 theorem. -/
def lastKV (k : String) : List (List Char) → Option String
  | [] => none
  | f :: rest =>
    match lastKV k rest with
    | some v => some v
    | none =>
      match splitOncePair '=' f with
      | some (kk, v) => if (⟨kk⟩ : String) = k then some ⟨v⟩ else none
      | none => none

/-! ## Device model (`src/device.rs`) -/

/-- Tagged device action (`DeviceAction` in `src/device.rs`). -/
inductive DeviceAction where
  | add
  | remove
  | change
  | bind
  | unbind
  | move
  | online
  | offline
  | unknown (s : String)
deriving DecidableEq, Repr

/-- Case-insensitive action parse (`DeviceAction::from_str`); the source's
`FromStr` never errs because unknown strings survive in the `Unknown` arm. -/
def DeviceAction.fromStr (s : String) : DeviceAction :=
  match toLowerStr s with
  | "add" => .add
  | "remove" => .remove
  | "change" => .change
  | "bind" => .bind
  | "unbind" => .unbind
  | "move" => .move
  | "online" => .online
  | "offline" => .offline
  | _ => .unknown s

/-- The typed device record (`UEventDevice`).  `timestamp` is the wall-clock
second count that the source stamps at construction time; the embedding takes
it as the explicit argument `now` of `fromEvent`. -/
structure UEventDevice where
  action : DeviceAction
  devpath : String
  subsystem : String
  devtype : Option String
  kernel : Option String
  major : Option Nat
  minor : Option Nat
  devnum : Option Nat
  seqnum : Nat
  timestamp : Nat
  properties : List (String × String)
  sysattrs : List (String × String)
deriving DecidableEq, Repr

/-- `UEventDevice::from_event`: requires `ACTION`, `SUBSYSTEM` and `DEVPATH`;
parses `MAJOR`/`MINOR` as `u32` and `DEVNUM`/`SEQNUM` as `u64` best-effort;
`SEQNUM` defaults to 0; the full property map is retained. -/
def fromEvent (ev : List (String × String)) (now : Nat) : Option UEventDevice :=
  (findProp ev "ACTION").bind fun actionStr =>
  (findProp ev "SUBSYSTEM").bind fun subsystem =>
  (findProp ev "DEVPATH").map fun devpath =>
  { action := DeviceAction.fromStr actionStr
    devpath := devpath
    subsystem := subsystem
    devtype := findProp ev "DEVTYPE"
    kernel := findProp ev "KERNEL"
    major := (findProp ev "MAJOR").bind (rustParseNat (2 ^ 32))
    minor := (findProp ev "MINOR").bind (rustParseNat (2 ^ 32))
    devnum := (findProp ev "DEVNUM").bind (rustParseNat (2 ^ 64))
    seqnum := ((findProp ev "SEQNUM").bind (rustParseNat (2 ^ 64))).getD 0
    timestamp := now
    properties := ev
    sysattrs := [] }

/-! ## Rule data model and matcher (`src/rules/matcher.rs`) -/

/-- One parsed rule (`Rule` in `src/rules/matcher.rs`). -/
structure Rule where
  action : Option String
  kernel : Option String
  subsystem : Option String
  driver : Option String
  devpath : Option String
  tag : Option String
  attr : List (String × String)
  env_vars : List (String × String)
  name : Option String
  symlink : List String
  owner : Option String
  group : Option String
  mode : Option String
  run : List (String × List String)
  program : Option String
  label : Option String
  goto : Option String
  ignore_device : Bool
  last_rule : Bool
deriving DecidableEq, Repr

/-- The all-empty rule, as initialised for each parsed line. -/
def emptyRule : Rule :=
  { action := none, kernel := none, subsystem := none, driver := none
    devpath := none, tag := none, attr := [], env_vars := []
    name := none, symlink := [], owner := none, group := none, mode := none
    run := [], program := none, label := none, goto := none
    ignore_device := false, last_rule := false }

/-- One optional equality predicate of the matcher: configured means the event
value must equal it exactly (`event.get(KEY) != Some(v)` in the source). -/
def optPredicate (pred : Option String) (actual : Option String) : Bool :=
  match pred with
  | none => true
  | some p => actual = some p

/-- Path append modelling `PathBuf::push` at the string level: pushing an
absolute component replaces the accumulated path. -/
def pathPushStr (base component : String) : String :=
  if startsWithStr component "/" then component else base ++ "/" ++ component

/-- `Rule::matches` (`src/rules/matcher.rs` lines 40-121).  `sysRead` is the
sysfs reader, standing for `fs::read_to_string`; attribute predicates read
`PathBuf::from("/sys")` pushed with the event devpath and the attribute key. -/
def Rule.matches (r : Rule) (ev : List (String × String)) (sysRead : String → Option String) : Bool :=
  let hasConditions :=
    r.action.isSome || r.subsystem.isSome || r.kernel.isSome || r.devpath.isSome ||
    r.driver.isSome || r.tag.isSome || !r.env_vars.isEmpty || !r.attr.isEmpty
  if !hasConditions then false
  else
    optPredicate r.action (findProp ev "ACTION") &&
    optPredicate r.subsystem (findProp ev "SUBSYSTEM") &&
    optPredicate r.kernel (findProp ev "KERNEL") &&
    optPredicate r.devpath (findProp ev "DEVPATH") &&
    optPredicate r.driver (findProp ev "DRIVER") &&
    optPredicate r.tag (findProp ev "TAG") &&
    r.env_vars.all (fun kv =>
      match findProp ev kv.1 with
      | some v => v = kv.2
      | none => false) &&
    (match findProp ev "DEVPATH" with
     | some sysPath =>
       r.attr.all (fun kv =>
         match sysRead (pathPushStr (pathPushStr "/sys" sysPath) kv.1) with
         | some content => trimStr content = kv.2
         | none => false)
     | none => r.attr.isEmpty)

/-- A rule whose only configured predicate is `ACTION==a`. -/
def actionOnlyRule (a : String) : Rule := { emptyRule with action := some a }

/-- A rule whose only configured predicate is `SUBSYSTEM==v`. -/
def subsystemOnlyRule (v : String) : Rule := { emptyRule with subsystem := some v }

/-- A rule whose only configured predicate is `KERNEL==v`. -/
def kernelOnlyRule (v : String) : Rule := { emptyRule with kernel := some v }

/-- A rule whose only configured predicate is `DEVPATH==v`. -/
def devpathOnlyRule (v : String) : Rule := { emptyRule with devpath := some v }

/-- A rule whose only configured predicate is `DRIVER==v`. -/
def driverOnlyRule (v : String) : Rule := { emptyRule with driver := some v }

/-- Case-insensitive string equality, written from the specification's words
for the C1 comparison. -/
def eqIgnoreCase (s t : String) : Bool := toLowerStr s = toLowerStr t

/-- A sysfs reader with no readable files, used for concrete evaluations. -/
def emptySys : String → Option String := fun _ => none

/-! ## Rule-file parser (`src/rules/parser.rs`, `parse_rules_file`)

A directory is modelled as the list of its regular files, each a filename
paired with its lines (`BufReader::lines`).  The regex tokenisation of one
line, `KEY OP "VALUE"`, is a parameter `tok`; everything after it — quote
stripping, directive dispatch, the run-map update, line filtering, and the
numeric-prefix file ordering — is translated from the source. -/

/-- Rust `str::trim_matches(c)` for the quote character: removes every leading
and trailing `"`. -/
def stripQuotesStr (s : String) : String :=
  ⟨stripBackAll '"' (s.data.dropWhile (fun c => c = '"'))⟩

/-- The wrapped-key payload: strips the `ENV\x7b` / `ATTR\x7b` front marker
(`trim_start_matches`) and every trailing closing brace (`trim_end_matches`). -/
def wrappedKeyOf (front : String) (rawKey : String) : String :=
  ⟨stripBackAll (Char.ofNat 125) (stripFrontAll front.data rawKey.data)⟩

/-- The warning the parser logs when a `RUN+=` directive appears before any
`ACTION==` predicate on the same line. -/
def runDropWarning (v : String) : String :=
  "RUN+=... found without ACTION==..., ignoring command: " ++ v

/-- `rule.run.entry(action).or_default().push(val)`. -/
def insertRunCmd (run : List (String × List String)) (a v : String) : List (String × List String) :=
  mapInsert run a ((lookupA run a).getD [] ++ [v])

/-- Processing of one `KEY OP "VALUE"` token against the rule under
construction (`src/rules/parser.rs` lines 155-202).  The second component
accumulates the warnings the parser logs. -/
def applyToken (st : Rule × List String) (t : String × String × String) : Rule × List String :=
  let r := st.1
  let warns := st.2
  let rawKey := t.1
  let op := t.2.1
  let val := stripQuotesStr t.2.2
  if startsWithStr rawKey "ENV\x7b" then
    ({ r with env_vars := r.env_vars ++ [(wrappedKeyOf "ENV\x7b" rawKey, val)] }, warns)
  else if startsWithStr rawKey "ATTR\x7b" then
    ({ r with attr := r.attr ++ [(wrappedKeyOf "ATTR\x7b" rawKey, val)] }, warns)
  else
    match rawKey, op with
    | "ACTION", "==" => ({ r with action := some val }, warns)
    | "KERNEL", "==" => ({ r with kernel := some val }, warns)
    | "SUBSYSTEM", "==" => ({ r with subsystem := some val }, warns)
    | "DRIVER", "==" => ({ r with driver := some val }, warns)
    | "DEVPATH", "==" => ({ r with devpath := some val }, warns)
    | "TAG", "==" => ({ r with tag := some val }, warns)
    | "NAME", "==" => ({ r with name := some val }, warns)
    | "SYMLINK", "+=" => ({ r with symlink := r.symlink ++ [val] }, warns)
    | "OWNER", "=" => ({ r with owner := some val }, warns)
    | "GROUP", "=" => ({ r with group := some val }, warns)
    | "MODE", "=" => ({ r with mode := some val }, warns)
    | "RUN", "+=" =>
      match r.action with
      | some a => ({ r with run := insertRunCmd r.run a val }, warns)
      | none => (r, warns ++ [runDropWarning val])
    | "PROGRAM", "==" => ({ r with program := some val }, warns)
    | "LABEL", "=" => ({ r with label := some val }, warns)
    | "GOTO", "=" => ({ r with goto := some val }, warns)
    | "OPTIONS", "+=" =>
      if val = "ignore_device" then ({ r with ignore_device := true }, warns)
      else if val = "last_rule" then ({ r with last_rule := true }, warns)
      else (r, warns)
    | _, _ => (r, warns)

/-- One non-comment line becomes one rule: the token fold starting from the
all-empty rule. -/
def parseLine (tok : String → List (String × String × String)) (line : String) : Rule × List String :=
  (tok line).foldl applyToken (emptyRule, [])

/-- Sort key of a directory entry: the first run of decimal digits of the
filename that parses as a `u32`; 0 when there is none
(`entries.sort_by_key` in `src/rules/parser.rs` lines 109-117). -/
def fileKey (name : String) : Nat :=
  ((splitOnP (fun c => !c.isDigit) name.data).findSome?
    (fun run => rustParseNat (2 ^ 32) ⟨run⟩)).getD 0

/-- Directory entries sorted by `fileKey`.  Rust `sort_by_key` is a stable
sort; insertion sort is stable and extensionally equal to it. -/
def sortEntries (dir : List (String × List String)) : List (String × List String) :=
  List.insertionSort (fun a b => fileKey a.1 ≤ fileKey b.1) dir

/-- The body of the line loop of `parse_rules_file`: trim, skip comment and
empty lines, push one parsed rule otherwise. -/
def parseLineStep (tok : String → List (String × String × String))
    (rules : List Rule) (line : String) : List Rule :=
  let l := trimStr line
  if startsWithStr l "#" || l = "" then rules
  else rules ++ [(parseLine tok l).1]

/-- The body of the file loop of `parse_rules_file`: walk one file's lines. -/
def parseFileStep (tok : String → List (String × String × String))
    (rules : List Rule) (e : String × List String) : List Rule :=
  e.2.foldl (parseLineStep tok) rules

/-- `parse_rules_file`: sorts the directory entries, then for each file walks
its lines, trimming each, skipping comment and empty lines, and pushing one
parsed rule per remaining line. -/
def parseRulesFile (tok : String → List (String × String × String))
    (dir : List (String × List String)) : List Rule :=
  (sortEntries dir).foldl (parseFileStep tok) []

/-- The lines of a file that yield rules, in order: trimmed, non-comment,
non-empty. -/
def keptLines (ls : List String) : List String :=
  (ls.map trimStr).filter (fun l => !(startsWithStr l "#" || l = ""))

/-- Modelled from the specification sentence for the C3 comparison: the
leading numeric prefix of a filename is the value of the first run of decimal
digits, with no magnitude restriction, and 0 when there is no digit at all. -/
def specLeadingNumber (name : String) : Nat :=
  ((splitOnP (fun c => !c.isDigit) name.data).findSome?
    (fun run => if run ≠ [] then some (digitsVal run) else none)).getD 0

/-- A degenerate tokeniser used only to build concrete parse inputs: it turns
the whole line into a single `LABEL=` directive, so rules coming from
different lines are distinguishable by their label. -/
def tokLabel : String → List (String × String × String) :=
  fun l => [("LABEL", "=", l)]

/-! ## Filesystem model for the action executor

The device-node area is a finite map from absolute paths (component lists) to
entries: directories, device nodes, or symbolic links carrying their stored
target.  Lookup by literal path models the directory-entry namespace; `exists`
and `canonicalize` follow chains of symbolic links at the looked-up position,
with the conventional symlink-loop bound as fuel.  Permission, owner and group
bits are metadata the model does not represent, so `apply_mode`, `apply_owner`
and `apply_group` are structure-preserving. -/

/-- An absolute filesystem path as its list of components. -/
abbrev FPath := List String

/-- A directory entry. -/
inductive FsEntry where
  | dir
  | node
  | link (target : FPath)
deriving DecidableEq, Repr

/-- The filesystem: a finite association of paths to entries. -/
abbrev Fs := List (FPath × FsEntry)

/-- Literal lookup of the entry stored at a path (`symlink_metadata`). -/
def fsLookup (fs : Fs) (p : FPath) : Option FsEntry :=
  (fs.find? (fun e => e.1 = p)).map (fun e => e.2)

/-- Removal of the entry stored at a path (`unlink`). -/
def fsErase (fs : Fs) (p : FPath) : Fs :=
  fs.filter (fun e => !(e.1 = p))

/-- Creation of an entry at a path. -/
def fsInsert (fs : Fs) (p : FPath) (e : FsEntry) : Fs :=
  (p, e) :: fsErase fs p

/-- Follows chains of symbolic links at a path, returning the final resolved
path and its entry.  The fuel bounds link chains as the kernel's symlink loop
limit does. -/
def resolveLeaf (fuel : Nat) (fs : Fs) (p : FPath) : Option (FPath × FsEntry) :=
  match fuel with
  | 0 => none
  | fuel + 1 =>
    match fsLookup fs p with
    | some (.link t) => resolveLeaf fuel fs t
    | some e => some (p, e)
    | none => none

/-- The symlink chain bound. -/
def linkFuel : Nat := 40

/-- `Path::exists`: the path resolves to an existing entry. -/
def pathExistsFs (fs : Fs) (p : FPath) : Bool :=
  (resolveLeaf linkFuel fs p).isSome

/-- `Path::canonicalize`: the fully resolved path, erring when the path does
not resolve. -/
def canonicalizeFs (fs : Fs) (p : FPath) : Option FPath :=
  (resolveLeaf linkFuel fs p).map (fun pr => pr.1)

/-- Whether a path is (or resolves to) an existing directory; the empty path
is the filesystem root, which always exists. -/
def dirAt (fs : Fs) (p : FPath) : Bool :=
  decide (p = []) ||
    (match resolveLeaf linkFuel fs p with
     | some (_, .dir) => true
     | _ => false)

/-- Splits a path string into components, dropping empty ones
(`PathBuf` component iteration). -/
def splitPathStr (s : String) : FPath :=
  ((splitOnChar '/' s.data).filter (fun cs => cs ≠ [])).map (fun cs => (⟨cs⟩ : String))

/-- `PathBuf::join`: joining an absolute path replaces the base. -/
def pathJoin (base : FPath) (s : String) : FPath :=
  if startsWithStr s "/" then splitPathStr s else base ++ splitPathStr s

/-- The hard-coded device-node root `/home/rust_udev/testdev`. -/
def rootPath : FPath := ["home", "rust_udev", "testdev"]

/-- `fs::create_dir_all` walking the missing prefixes of a path; the flag is
false when an existing non-directory entry blocks the walk (the error the
source turns into a panic via `unwrap`). -/
def createDirAllGo (fs : Fs) (done : FPath) : List String → Fs × Bool
  | [] => (fs, true)
  | c :: rest =>
    let q := done ++ [c]
    match fsLookup fs q with
    | none => createDirAllGo (fsInsert fs q .dir) q rest
    | some .dir => createDirAllGo fs q rest
    | some (.link t) =>
      match resolveLeaf linkFuel fs t with
      | some (_, .dir) => createDirAllGo fs q rest
      | _ => (fs, false)
    | some .node => (fs, false)

/-- `fs::create_dir_all` on an absolute path. -/
def createDirAll (fs : Fs) (p : FPath) : Fs × Bool :=
  createDirAllGo fs [] p

/-- The `mknod` syscall as the source tolerates it: an existing entry is
"File exists" (kept, logged, continue); a missing parent directory is an
error (logged, continue); otherwise the node is created. -/
def mknodFs (fs : Fs) (p : FPath) : Fs :=
  if (fsLookup fs p).isSome then fs
  else if dirAt fs p.dropLast then fsInsert fs p .node
  else fs

/-- `fs::remove_file`: unlinks the entry at the path; errs on directories and
missing entries. -/
def removeFileFs (fs : Fs) (p : FPath) : Fs × Bool :=
  match fsLookup fs p with
  | some .dir => (fs, false)
  | some _ => (fsErase fs p, true)
  | none => (fs, false)

/-- The `symlink` syscall: errs when the name already exists or the parent
directory is missing; otherwise stores the link with its target. -/
def symlinkFs (fs : Fs) (target : FPath) (at_ : FPath) : Fs × Bool :=
  if (fsLookup fs at_).isSome then (fs, false)
  else if dirAt fs at_.dropLast then (fsInsert fs at_ (.link target), true)
  else (fs, false)

/-! ## Action executor (`src/actions.rs`) and per-event worker (`src/udevd.rs`)

The worker passes the raw event map to the executor; every device accessor the
executor substitutes from is the corresponding event property (`KERNEL`,
`DEVNAME`, `DEVPATH`, `DEVTYPE`, `DEVNUM`, `SUBSYSTEM`, `MAJOR`, `MINOR`),
with the numeric ones parsed as the device model parses them.  Command
execution spawns `sh -c`; the embedding records the spawned command strings
instead of running them. -/

/-- `substitute_vars` (`src/actions.rs` lines 15-52): replaces each `%X`
single-character code whose device value is present, then each
`$\x7bKEY\x7d` property reference.  Missing values leave the token in place. -/
def substituteVars (input : String) (ev : List (String × String)) : String :=
  let devnumStr := ((findProp ev "DEVNUM").bind (rustParseNat (2 ^ 64))).map natToStr
  let majorStr := ((findProp ev "MAJOR").bind (rustParseNat (2 ^ 32))).map natToStr
  let minorStr := ((findProp ev "MINOR").bind (rustParseNat (2 ^ 32))).map natToStr
  let vars : List (Char × Option String) :=
    [('k', findProp ev "KERNEL"), ('n', findProp ev "DEVNAME"),
     ('p', findProp ev "DEVPATH"), ('c', findProp ev "DEVTYPE"),
     ('t', findProp ev "DEVTYPE"), ('d', devnumStr),
     ('s', findProp ev "SUBSYSTEM"), ('m', majorStr), ('r', minorStr)]
  let result := vars.foldl
    (fun res cv =>
      match cv.2 with
      | some val => replaceStr res ⟨['%', cv.1]⟩ val
      | none => res)
    input
  ev.foldl (fun res kv => replaceStr res ("$\x7b" ++ kv.1 ++ "\x7d") kv.2) result

/-- `create_device_node` (`src/actions.rs` lines 54-91): the node path is the
string concatenation of the root and the devnode name; parent directories are
created (`unwrap`, so a blocking entry panics — flag false); `mknod` errors
are tolerated; mode/owner/group act on metadata only. -/
def createDeviceNode (fs : Fs) (devname : String) : Fs × Bool :=
  let p := rootPath ++ splitPathStr devname
  let step := createDirAll fs p.dropLast
  if step.2 then (mknodFs step.1 p, true) else (step.1, false)

/-- `create_symlinks` (`src/actions.rs` lines 133-152): for each pattern,
substitute, join under the root, unlink an existing file at the link path,
and create the link; the first failing step aborts the remaining patterns
(the function's early `?` return, which the caller only warns about). -/
def createSymlinks (fs : Fs) (devPath : FPath) (links : List String)
    (ev : List (String × String)) : Fs × Bool :=
  match links with
  | [] => (fs, true)
  | link :: rest =>
    let lp := pathJoin rootPath (substituteVars link ev)
    let afterUnlink : Fs × Bool :=
      if pathExistsFs fs lp then removeFileFs fs lp else (fs, true)
    if afterUnlink.2 then
      let created := symlinkFs afterUnlink.1 devPath lp
      if created.2 then createSymlinks created.1 devPath rest ev
      else (created.1, false)
    else (afterUnlink.1, false)

/-- The paths of the entries directly inside a directory, in storage order
(`fs::read_dir`). -/
def childrenOf (fs : Fs) (d : FPath) : List FPath :=
  (fs.map (fun e => e.1)).filter
    (fun p => decide (p.length = d.length + 1) && decide (p.dropLast = d))

/-- The scan loop of `remove_symlinks`: for each directory entry that is a
symbolic link, resolve its stored target and unlink it when the resolution
equals the canonical device path computed up front.  A metadata or unlink
error aborts the scan (the `?` returns); a target that fails to canonicalize
is only warned about. -/
def removeSymlinksGo (devCanon : FPath) (children : List FPath) (fs : Fs) : Fs × Bool :=
  match children with
  | [] => (fs, true)
  | p :: rest =>
    match fsLookup fs p with
    | none => (fs, false)
    | some (.link t) =>
      match canonicalizeFs fs t with
      | some c =>
        if c = devCanon then
          let removed := removeFileFs fs p
          if removed.2 then removeSymlinksGo devCanon rest removed.1
          else (removed.1, false)
        else removeSymlinksGo devCanon rest fs
      | none => removeSymlinksGo devCanon rest fs
    | some _ => removeSymlinksGo devCanon rest fs

/-- `remove_symlinks` (`src/actions.rs` lines 165-200): canonicalizes the
device path (erring when it does not resolve), then scans the top level of
the symlink directory. -/
def removeSymlinks (fs : Fs) (devPath : FPath) (dirPath : FPath) : Fs × Bool :=
  match canonicalizeFs fs devPath with
  | none => (fs, false)
  | some devCanon => removeSymlinksGo devCanon (childrenOf fs dirPath) fs

/-- `remove_device_node` (`src/actions.rs` lines 154-163): unlinks the node
when the path exists, otherwise only warns. -/
def removeDeviceNode (fs : Fs) (p : FPath) : Fs × Bool :=
  if pathExistsFs fs p then removeFileFs fs p else (fs, true)

/-- `execute_rule_actions` (`src/udevd.rs` lines 83-196): dispatch on the
event's `ACTION`, requiring `DEVNAME`.  The returned list is the sequence of
shell commands handed to `run_commands` for the matching action key. -/
def executeRuleActions (rule : Rule) (ev : List (String × String)) (fs : Fs) :
    Fs × List String :=
  match findProp ev "DEVNAME" with
  | none => (fs, [])
  | some devname =>
    let devPath := pathJoin rootPath devname
    match findProp ev "ACTION" with
    | some a =>
      if a = "add" then
        let created := createDeviceNode fs devname
        if created.2 then
          let linked := createSymlinks created.1 devPath rule.symlink ev
          (linked.1, (lookupA rule.run "add").getD [])
        else (created.1, [])
      else if a = "remove" then
        let unlinked := removeSymlinks fs devPath rootPath
        let removed := removeDeviceNode unlinked.1 devPath
        (removed.1, (lookupA rule.run "remove").getD [])
      else if a = "change" then (fs, [])
      else if a = "bind" then
        let linked := createSymlinks fs devPath rule.symlink ev
        (linked.1, (lookupA rule.run "bind").getD [])
      else if a = "unbind" then
        let unlinked := removeSymlinks fs devPath rootPath
        (unlinked.1, (lookupA rule.run "unbind").getD [])
      else (fs, [])
    | none => (fs, [])

/-- An observable step of the per-event worker: a `matches` evaluation, a
spawned shell command, or a warn-level log line. -/
inductive RTrace where
  | evalRule (r : Rule)
  | execCmd (c : String)
  | warned (msg : String)
deriving DecidableEq, Repr

/-- The implementation-level action filter of the worker: the event's
`ACTION` must be one of the five supported lowercase strings. -/
def actionAllowed (ev : List (String × String)) : Bool :=
  match findProp ev "ACTION" with
  | some a => ["add", "remove", "change", "bind", "unbind"].contains a
  | none => false

/-- The rule walk of the worker: evaluate rules in order, execute the first
match and stop, warn when nothing matched. -/
def processEventGo (ev : List (String × String)) (sys : String → Option String) :
    List Rule → Fs → List RTrace → Fs × List RTrace
  | [], fs, trace => (fs, trace ++ [.warned "No rules matched"])
  | r :: rest, fs, trace =>
    let trace1 := trace ++ [.evalRule r]
    if r.matches ev sys then
      let res := executeRuleActions r ev fs
      (res.1, trace1 ++ res.2.map RTrace.execCmd)
    else processEventGo ev sys rest fs trace1

/-- `process_event` (`src/udevd.rs` lines 50-80): the worker body.  Events
whose `DEVTYPE` is not `usb_device`, or whose `ACTION` is outside the
supported set, return before any rule is consulted, with no log line. -/
def processEvent (rules : List Rule) (ev : List (String × String))
    (sys : String → Option String) (fs : Fs) : Fs × List RTrace :=
  if findProp ev "DEVTYPE" ≠ some "usb_device" then (fs, [])
  else if !actionAllowed ev then (fs, [])
  else processEventGo ev sys rules fs []

/-! ## Query command (`src/libudev.rs`, `get_device_info`)

The OS facilities the query consults are taken as a record of functions; path
composition is string-level `PathBuf::join`. -/

/-- What `fs::metadata` reports about a node: its file type, the major and
minor numbers of its device number, and its permission bits. -/
structure DevMeta where
  isCharDevice : Bool
  rdevMajor : Nat
  rdevMinor : Nat
  mode : Nat
deriving DecidableEq, Repr

/-- The filesystem world the query reads: existence, stat metadata, file
contents, and symlink targets. -/
structure SysWorld where
  pathExists : String → Bool
  metadata : String → Option DevMeta
  readToString : String → Option String
  readLink : String → Option String

/-- `PathBuf::join` with a relative component, at the string level. -/
def joinPath (a b : String) : String := a ++ "/" ++ b

/-- The `/sys/dev/char/MAJOR:MINOR` path formatted from stat metadata. -/
def charSysPath (md : DevMeta) : String :=
  "/sys/dev/char/" ++ natToStr md.rdevMajor ++ ":" ++ natToStr md.rdevMinor

/-- Octal rendering of the low permission bits (`format!("\x7b:o\x7d", mode & 0o777)`;
the mask keeps the value below 512). -/
def octalStr (n : Nat) : String := ⟨Nat.toDigits 8 (n % 512)⟩

/-- Rust `str::lines` over the character list: split on newline, drop the
optional final empty segment, strip one trailing carriage return per line. -/
def linesChars (cs : List Char) : List (List Char) :=
  let parts := splitOnChar '\n' cs
  let parts := if parts.getLast? = some [] then parts.dropLast else parts
  parts.map (fun l => if l.getLast? = some '\r' then l.dropLast else l)

/-- One line of a `uevent` file folded into the map, skipping the caller's
`DEVNAME` (the char-device branch of `get_device_info`). -/
def ueventLineStep (m : List (String × String)) (line : List Char) : List (String × String) :=
  match splitOncePair '=' line with
  | some (k, v) => if (⟨k⟩ : String) = "DEVNAME" then m else mapInsert m ⟨k⟩ ⟨v⟩
  | none => m

/-- One line of a `uevent` file folded into the map with no skipping (the
sysfs-directory fallback branch). -/
def ueventLineStepAll (m : List (String × String)) (line : List Char) : List (String × String) :=
  match splitOncePair '=' line with
  | some (k, v) => mapInsert m ⟨k⟩ ⟨v⟩
  | none => m

/-- `Path::file_name` of a symlink target: its last real component; `..` has
no file name. -/
def fileNameOf (s : String) : Option String :=
  match (((splitOnChar '/' s.data).filter (fun cs => cs ≠ [])).filter
      (fun cs => cs ≠ ['.'])).getLast? with
  | none => none
  | some cs => if cs = ['.', '.'] then none else some ⟨cs⟩

/-- The `if let Ok/Some` insert pattern of `get_device_info`: inserts the
value when present, keeps the map otherwise. -/
def optInsert (m : List (String × String)) (k : String) (o : Option String) :
    List (String × String) :=
  match o with
  | some v => mapInsert m k v
  | none => m

/-- Folding an optional `uevent` file body with the `DEVNAME`-protecting step. -/
def ueventFold (m : List (String × String)) (o : Option String) : List (String × String) :=
  match o with
  | some body => (linesChars body.data).foldl ueventLineStep m
  | none => m

/-- Folding an optional `uevent` file body with the unprotected step. -/
def ueventFoldAll (m : List (String × String)) (o : Option String) : List (String × String) :=
  match o with
  | some body => (linesChars body.data).foldl ueventLineStepAll m
  | none => m

/-- The character-device branch of `get_device_info` (`src/libudev.rs` lines
20-62): requires `/sys/dev/char/M:m` to exist, seeds the map with the
caller's `DEVNAME`, folds the `uevent` file never overriding it, then adds
`SUBSYSTEM`, `DEVTYPE`, `DRIVER`, `PHYSDEVPATH` and `DEVMODE`. -/
def charBranch (w : SysWorld) (devpath : String) (md : DevMeta) :
    Option (List (String × String)) :=
  let sysPath := charSysPath md
  if !w.pathExists sysPath then none
  else
    let info := mapInsert [] "DEVNAME" devpath
    let info := ueventFold info (w.readToString (joinPath sysPath "uevent"))
    let info := optInsert info "SUBSYSTEM" ((w.readLink (joinPath sysPath "subsystem")).bind fileNameOf)
    let info := optInsert info "DEVTYPE" ((w.readToString (joinPath sysPath "type")).map trimStr)
    let info := optInsert info "DRIVER" ((w.readLink (joinPath sysPath "device/driver")).bind fileNameOf)
    let info := optInsert info "PHYSDEVPATH" (w.readLink (joinPath sysPath "device"))
    some (mapInsert info "DEVMODE" (octalStr md.mode))

/-- The fallback branch of `get_device_info` (`src/libudev.rs` lines 65-84):
when the path has an adjacent `uevent` entry, fold that file (no `DEVNAME`
protection here) and resolve the `subsystem` symlink. -/
def fallbackBranch (w : SysWorld) (devpath : String) : Option (List (String × String)) :=
  if w.pathExists (joinPath devpath "uevent") then
    let info := ueventFoldAll [] (w.readToString (joinPath devpath "uevent"))
    some (optInsert info "SUBSYSTEM" ((w.readLink (joinPath devpath "subsystem")).bind fileNameOf))
  else none

/-- `get_device_info` (`src/libudev.rs` lines 10-85). -/
def getDeviceInfo (w : SysWorld) (devpath : String) : Option (List (String × String)) :=
  if !w.pathExists devpath then none
  else
    match w.metadata devpath with
    | some md => if md.isCharDevice then charBranch w devpath md else fallbackBranch w devpath
    | none => fallbackBranch w devpath

/-! ## Concrete scenarios used by counterexamples and witnesses -/

/-- An add event for devnode `a/node` (a name inside a subdirectory of the
device-node root). -/
def evAddC7 : List (String × String) :=
  [("ACTION", "add"), ("DEVNAME", "a/node"), ("DEVTYPE", "usb_device")]

/-- The matching remove event for the same devnode. -/
def evRemoveC7 : List (String × String) :=
  [("ACTION", "remove"), ("DEVNAME", "a/node"), ("DEVTYPE", "usb_device")]

/-- A rule creating one symlink inside the subdirectory `a` of the root. -/
def ruleC7 : Rule := { emptyRule with symlink := ["a/link"] }

/-- The filesystem after executing the add action from an empty root. -/
def c7AfterAdd : Fs := (executeRuleActions ruleC7 evAddC7 []).1

/-- The filesystem after then executing the remove action. -/
def c7FinalFs : Fs := (executeRuleActions ruleC7 evRemoveC7 c7AfterAdd).1

/-- Stat metadata of a character device 4:1 with permission bits 0660. -/
def mdC8 : DevMeta := { isCharDevice := true, rdevMajor := 4, rdevMinor := 1, mode := 432 }

/-- A world with one character device node `/dev/x` whose sysfs `uevent` file
carries a conflicting `DEVNAME`. -/
def wC8 : SysWorld :=
  { pathExists := fun p => decide (p = "/dev/x" ∨ p = "/sys/dev/char/4:1")
    metadata := fun p => if p = "/dev/x" then some mdC8 else none
    readToString := fun p =>
      if p = "/sys/dev/char/4:1/uevent" then some "DEVNAME=other\nMAJOR=4" else none
    readLink := fun _ => none }

/-- The query record `get_device_info` produces for `/dev/x` in `wC8`. -/
def infoC8 : List (String × String) := (getDeviceInfo wC8 "/dev/x").getD []

/-- Stat metadata of a plain directory (not a character or block device). -/
def dirMetaC9 : DevMeta := { isCharDevice := false, rdevMajor := 0, rdevMinor := 0, mode := 493 }

/-- A world where `d` exists, is not a device, and has a `uevent` entry. -/
def wC9 : SysWorld :=
  { pathExists := fun p => decide (p = "d" ∨ p = "d/uevent")
    metadata := fun p => if p = "d" then some dirMetaC9 else none
    readToString := fun p => if p = "d/uevent" then some "A=B" else none
    readLink := fun _ => none }

/-! ## Map lemmas -/

theorem find_key_filter {α : Type} (m : List (String × α)) (k k2 : String) (h : ¬ k2 = k) :
    (m.filter (fun e => !(e.1 = k))).find? (fun e => e.1 = k2) =
      m.find? (fun e => e.1 = k2) := by
  induction m with
  | nil => rfl
  | cons e rest ih =>
    by_cases he : e.1 = k
    · have hne : ¬ (e.1 = k2) := fun hc => h (hc ▸ he)
      have hkk : ¬ (k = k2) := fun hc => h hc.symm
      simp [List.filter_cons, he, List.find?_cons, hne, ih, hkk]
    · by_cases he2 : e.1 = k2
      · simp [List.filter_cons, he, List.find?_cons, he2, h]
      · simp [List.filter_cons, he, List.find?_cons, he2, ih]

theorem lookupA_mapInsert {α : Type} (m : List (String × α)) (k k2 : String) (v : α) :
    lookupA (mapInsert m k v) k2 = if k2 = k then some v else lookupA m k2 := by
  by_cases h : k2 = k
  · subst h
    simp [lookupA, mapInsert, List.find?_cons]
  · have hne : ¬ (k = k2) := fun hc => h hc.symm
    simp [lookupA, mapInsert, List.find?_cons, hne, h, find_key_filter m k k2 h]

/-! ## Claim C1 — matcher predicate comparison semantics -/

/-- C1 counterexample: the claim asserts case-insensitive comparison, but for
the rule whose only predicate is `ACTION=="add"` and the event whose `ACTION`
is `"ADD"`, `matches` returns false even though the two strings are equal
case-insensitively.  `Rule::matches` compares with `==` on `String`, which is
case-sensitive. -/
theorem c1_counterexample :
    ¬ (Rule.matches (actionOnlyRule "add") [("ACTION", "ADD")] emptySys = true ↔
        eqIgnoreCase "ADD" "add" = true) := by decide

/-- C1 (amended): the action, subsystem, kernel, devpath and driver predicates
are evaluated as case-sensitive (exact) string equality against the
corresponding event fields; in particular, for a rule whose only configured
predicate is `ACTION==a`, `matches` holds iff the event's `ACTION` value is
exactly `a`. -/
theorem c1_predicates_case_sensitive (a : String) (ev : List (String × String))
    (sys : String → Option String) :
    (Rule.matches (actionOnlyRule a) ev sys = true ↔ findProp ev "ACTION" = some a)
    ∧ (Rule.matches (subsystemOnlyRule a) ev sys = true ↔ findProp ev "SUBSYSTEM" = some a)
    ∧ (Rule.matches (kernelOnlyRule a) ev sys = true ↔ findProp ev "KERNEL" = some a)
    ∧ (Rule.matches (devpathOnlyRule a) ev sys = true ↔ findProp ev "DEVPATH" = some a)
    ∧ (Rule.matches (driverOnlyRule a) ev sys = true ↔ findProp ev "DRIVER" = some a) := by
  refine ⟨?_, ?_, ?_, ?_, ?_⟩ <;>
  · cases hdp : findProp ev "DEVPATH" <;>
      simp [Rule.matches, actionOnlyRule, subsystemOnlyRule, kernelOnlyRule,
        devpathOnlyRule, driverOnlyRule, emptyRule, optPredicate, hdp]

/-! ## Claim C2 — a rule with no predicates is inert -/

/-- C2: for every rule with no configured predicates (all six scalar
predicates unset and both predicate lists empty) and every event,
`matches` returns false. -/
theorem c2_inert_rule_never_matches (r : Rule) (ev : List (String × String))
    (sys : String → Option String)
    (h1 : r.action = none) (h2 : r.kernel = none) (h3 : r.subsystem = none)
    (h4 : r.driver = none) (h5 : r.devpath = none) (h6 : r.tag = none)
    (h7 : r.env_vars = []) (h8 : r.attr = []) :
    r.matches ev sys = false := by
  simp [Rule.matches, h1, h2, h3, h4, h5, h6, h7, h8]

/-- C2 witness: the all-empty rule does not match an ordinary add event. -/
theorem c2_witness :
    Rule.matches emptyRule [("ACTION", "add")] emptySys = false :=
  c2_inert_rule_never_matches emptyRule [("ACTION", "add")] emptySys
    rfl rfl rfl rfl rfl rfl rfl rfl

/-! ## Claim C4 — `RUN+=` is keyed by the current `ACTION==` predicate -/

/-- C4: a `RUN+=v` token appends `v` to the run map under the key equal to the
rule's currently-set action predicate; when no action predicate has been set
at that point, the rule (and so its run map) is unchanged and the parser logs
the drop warning. -/
theorem c4_run_keyed_by_action (r : Rule) (ws : List String) (v : String) :
    (r.action = none →
      applyToken (r, ws) ("RUN", "+=", v) = (r, ws ++ [runDropWarning (stripQuotesStr v)]))
    ∧ ∀ a, r.action = some a →
      applyToken (r, ws) ("RUN", "+=", v) =
        ({ r with run := insertRunCmd r.run a (stripQuotesStr v) }, ws) := by
  constructor
  · intro h
    cases r with
    | mk action kernel subsystem driver devpath tag attr env_vars name symlink owner
        group mode run program label goto ignore_device last_rule =>
      have h2 : action = none := h
      subst h2
      rfl
  · intro a h
    cases r with
    | mk action kernel subsystem driver devpath tag attr env_vars name symlink owner
        group mode run program label goto ignore_device last_rule =>
      have h2 : action = some a := h
      subst h2
      rfl

/-- C4 witness: both branches of the theorem at concrete inputs — a bare
`RUN+=` is dropped with a warning, and one following `ACTION=="add"` lands
under the `add` key. -/
theorem c4_witness :
    applyToken (emptyRule, []) ("RUN", "+=", "/bin/true") =
      (emptyRule, [runDropWarning (stripQuotesStr "/bin/true")])
    ∧ applyToken (actionOnlyRule "add", []) ("RUN", "+=", "/bin/true") =
      ({ actionOnlyRule "add" with
          run := insertRunCmd (actionOnlyRule "add").run "add" (stripQuotesStr "/bin/true") }, []) :=
  ⟨(c4_run_keyed_by_action emptyRule [] "/bin/true").1 rfl,
   (c4_run_keyed_by_action (actionOnlyRule "add") [] "/bin/true").2 "add" rfl⟩

/-! ## Claim C10 — the worker filter discards events silently -/

/-- C10: when the event's `DEVTYPE` is not `usb_device`, or its `ACTION` is
not one of the five supported lowercase strings, the worker returns with the
filesystem untouched and an empty trace: no rule evaluation, no command, and
no warning. -/
theorem c10_filter_discards_silently (rules : List Rule) (ev : List (String × String))
    (sys : String → Option String) (fs : Fs)
    (h : findProp ev "DEVTYPE" ≠ some "usb_device" ∨ actionAllowed ev = false) :
    processEvent rules ev sys fs = (fs, []) := by
  unfold processEvent
  rcases h with h | h
  · rw [if_pos h]
  · by_cases hd : findProp ev "DEVTYPE" ≠ some "usb_device"
    · rw [if_pos hd]
    · simp [hd, h]

/-- C10 witness: an event whose `DEVTYPE` is `disk` is discarded with no trace
even though a rule is installed. -/
theorem c10_witness :
    processEvent [actionOnlyRule "add"] [("ACTION", "add"), ("DEVTYPE", "disk")]
      emptySys [] = ([], []) :=
  c10_filter_discards_silently _ _ _ _ (Or.inl (by decide))

/-! ## Claim C5 — datagram decoding -/

theorem findProp_decode_foldl (k : String) (fields : List (List Char))
    (m : List (String × String)) :
    findProp (fields.foldl decodeStep m) k =
      match lastKV k fields with
      | some v => some v
      | none => findProp m k := by
  induction fields generalizing m with
  | nil => rfl
  | cons f rest ih =>
    rw [List.foldl_cons, ih]
    cases hr : lastKV k rest with
    | some w => simp [lastKV, hr]
    | none =>
      cases hsp : splitOncePair '=' f with
      | none => simp [lastKV, hr, hsp, decodeStep]
      | some kv =>
        obtain ⟨kk, v⟩ := kv
        by_cases hk : (⟨kk⟩ : String) = k
        · simp [lastKV, hr, hsp, decodeStep, hk, findProp, lookupA_mapInsert]
        · have hk2 : ¬ (k = (⟨kk⟩ : String)) := fun hc => hk hc.symm
          simp [lastKV, hr, hsp, decodeStep, hk, hk2, findProp, lookupA_mapInsert]

/-- C5: the decoded property map of a datagram payload is characterised by
NUL-splitting: the value of key `k` is the one carried by the last
NUL-separated field of the form `k=v` (key = text before the first `=`,
value = text after it), and fields without `=` — the kernel's leading header
summary line among them — contribute nothing. -/
theorem c5_decode_splits_on_nul (payload : String) (k : String) :
    findProp (decodeEvent payload) k = lastKV k (splitOnChar nulChar payload.data) := by
  unfold decodeEvent
  rw [findProp_decode_foldl]
  cases h : lastKV k (splitOnChar nulChar payload.data) <;> simp [findProp, lookupA]

/-! ## Claim C6 — device record construction -/

/-- C6: `from_event` succeeds exactly when `ACTION`, `SUBSYSTEM` and `DEVPATH`
are present; on success the record retains the full property map, parses
`MAJOR`/`MINOR`/`DEVNUM` best-effort (missing or unparsable values give
`none`), defaults `SEQNUM` to 0, and stamps the construction time. -/
theorem c6_from_event (ev : List (String × String)) (now : Nat) :
    ((fromEvent ev now).isSome = true ↔
      (findProp ev "ACTION").isSome = true ∧ (findProp ev "SUBSYSTEM").isSome = true ∧
        (findProp ev "DEVPATH").isSome = true)
    ∧ ∀ d, fromEvent ev now = some d →
        d.properties = ev
        ∧ d.major = (findProp ev "MAJOR").bind (rustParseNat (2 ^ 32))
        ∧ d.minor = (findProp ev "MINOR").bind (rustParseNat (2 ^ 32))
        ∧ d.devnum = (findProp ev "DEVNUM").bind (rustParseNat (2 ^ 64))
        ∧ d.seqnum = ((findProp ev "SEQNUM").bind (rustParseNat (2 ^ 64))).getD 0
        ∧ d.timestamp = now := by
  constructor
  · cases hA : findProp ev "ACTION" <;> cases hS : findProp ev "SUBSYSTEM" <;>
      cases hD : findProp ev "DEVPATH" <;> simp [fromEvent, hA, hS, hD]
  · intro d h
    cases hA : findProp ev "ACTION" with
    | none => simp [fromEvent, hA] at h
    | some x =>
      cases hS : findProp ev "SUBSYSTEM" with
      | none => simp [fromEvent, hA, hS] at h
      | some y =>
        cases hD : findProp ev "DEVPATH" with
        | none => simp [fromEvent, hA, hS, hD] at h
        | some z =>
          simp only [fromEvent, hA, hS, hD, Option.some_bind, Option.map_some',
            Option.some.injEq] at h
          subst h
          exact ⟨rfl, rfl, rfl, rfl, rfl, rfl⟩

/-- C6 witness: a minimal event carrying exactly the three required keys
produces a device record. -/
theorem c6_witness :
    (fromEvent [("ACTION", "add"), ("SUBSYSTEM", "usb"), ("DEVPATH", "/devices/x")] 7).isSome
      = true :=
  (c6_from_event [("ACTION", "add"), ("SUBSYSTEM", "usb"), ("DEVPATH", "/devices/x")] 7).1.mpr
    (by decide)

/-! ## Claim C3 — rule-file ordering -/

theorem foldl_parseLineStep (tok : String → List (String × String × String))
    (lines : List String) (acc : List Rule) :
    lines.foldl (parseLineStep tok) acc =
      acc ++ (keptLines lines).map (fun l => (parseLine tok l).1) := by
  induction lines generalizing acc with
  | nil => simp [keptLines]
  | cons l ls ih =>
    rw [List.foldl_cons]
    by_cases h1 : startsWithStr (trimStr l) "#" = true
    · have hstep : parseLineStep tok acc l = acc := by simp [parseLineStep, h1]
      have hfilt : keptLines (l :: ls) = keptLines ls := by
        simp [keptLines, List.filter_cons, h1]
      rw [hstep, ih, hfilt]
    · by_cases h2 : trimStr l = ""
      · have hstep : parseLineStep tok acc l = acc := by simp [parseLineStep, h2]
        have hfilt : keptLines (l :: ls) = keptLines ls := by
          simp [keptLines, List.filter_cons, h2]
        rw [hstep, ih, hfilt]
      · have hstep : parseLineStep tok acc l = acc ++ [(parseLine tok (trimStr l)).1] := by
          simp [parseLineStep, h1, h2]
        have hfilt : keptLines (l :: ls) = trimStr l :: keptLines ls := by
          simp [keptLines, List.filter_cons, h1, h2]
        rw [hstep, ih, hfilt]
        simp

theorem foldl_parseFileStep (tok : String → List (String × String × String))
    (entries : List (String × List String)) (acc : List Rule) :
    entries.foldl (parseFileStep tok) acc =
      acc ++ entries.flatMap (fun e => (keptLines e.2).map (fun l => (parseLine tok l).1)) := by
  induction entries generalizing acc with
  | nil => simp
  | cons e rest ih =>
    simp [List.foldl_cons, parseFileStep, foldl_parseLineStep, ih]

/-- C3 (amended): the parsed rule list processes files in ascending order of
the sort key — the first run of decimal digits of the filename that fits in an
unsigned 32-bit integer, with overlarge runs skipped and 0 when no run parses
— and within each file emits exactly one rule per trimmed non-empty
non-comment line, in line order.  The three conjuncts: the processed entry
sequence is sorted by the key, it is a permutation of the directory, and the
rule list is the in-order concatenation of each file's per-line rules. -/
theorem c3_file_order (tok : String → List (String × String × String))
    (dir : List (String × List String)) :
    List.Sorted (fun a b => fileKey a.1 ≤ fileKey b.1) (sortEntries dir)
    ∧ (sortEntries dir).Perm dir
    ∧ parseRulesFile tok dir =
        (sortEntries dir).flatMap (fun e => (keptLines e.2).map (fun l => (parseLine tok l).1)) := by
  refine ⟨?_, ?_, ?_⟩
  · haveI : IsTotal (String × List String) (fun a b => fileKey a.1 ≤ fileKey b.1) :=
      ⟨fun a b => Nat.le_total _ _⟩
    haveI : IsTrans (String × List String) (fun a b => fileKey a.1 ≤ fileKey b.1) :=
      ⟨fun _ _ _ hab hbc => le_trans hab hbc⟩
    exact List.sorted_insertionSort _ _
  · exact List.perm_insertionSort _ _
  · unfold parseRulesFile
    rw [foldl_parseFileStep]
    simp

/-- C3 counterexample: with the claim's reading — the prefix is the first run
of decimal digits, unbounded — the file `4294967296.rules` (prefix
4294967296, which overflows `u32`, so the source's key parse skips it and
yields 0) sorts before `1.rules` (prefix 1), and its rules come first in the
parsed list, violating the claimed ascending-prefix order. -/
theorem c3_counterexample :
    (parseRulesFile tokLabel [("1.rules", ["A"]), ("4294967296.rules", ["B"])]).map
        (fun r => r.label) = [some "B", some "A"]
    ∧ specLeadingNumber "4294967296.rules" = 4294967296
    ∧ specLeadingNumber "1.rules" = 1
    ∧ ¬ specLeadingNumber "4294967296.rules" ≤ specLeadingNumber "1.rules" := by
  refine ⟨by decide, by decide, by decide, by decide⟩

/-! ## Claim C7 — add then remove -/

theorem fsLookup_fsErase (fs : Fs) (p : FPath) : fsLookup (fsErase fs p) p = none := by
  unfold fsLookup fsErase
  rw [List.find?_eq_none.mpr]
  · rfl
  · intro x hx
    rw [List.mem_filter] at hx
    simpa using hx.2

theorem resolveLeaf_succ (fuel : Nat) (fs : Fs) (p : FPath) :
    resolveLeaf (fuel + 1) fs p =
      match fsLookup fs p with
      | some (.link t) => resolveLeaf fuel fs t
      | some e => some (p, e)
      | none => none := rfl

theorem pathExists_of_node (fs : Fs) (p : FPath)
    (h : fsLookup fs p = some FsEntry.node) : pathExistsFs fs p = true := by
  unfold pathExistsFs linkFuel
  show (resolveLeaf (39 + 1) fs p).isSome = true
  rw [resolveLeaf_succ, h]
  rfl

theorem removeFileFs_not_node (fs : Fs) (p : FPath) :
    fsLookup (removeFileFs fs p).1 p ≠ some FsEntry.node := by
  unfold removeFileFs
  cases h : fsLookup fs p with
  | none => simp [h]
  | some e =>
    cases e with
    | dir => simp [h]
    | node => simp [fsLookup_fsErase]
    | link t => simp [fsLookup_fsErase]

theorem removeDeviceNode_not_node (fs : Fs) (p : FPath) :
    fsLookup (removeDeviceNode fs p).1 p ≠ some FsEntry.node := by
  unfold removeDeviceNode
  cases h : pathExistsFs fs p with
  | true => simpa [h] using removeFileFs_not_node fs p
  | false =>
    simp only [h, Bool.false_eq_true, if_false]
    intro hc
    rw [pathExists_of_node fs p hc] at h
    exact Bool.true_eq_false.mp h

/-- C7 (amended): executing the remove action for a devnode, from any state
of the device-node root, leaves no device node at `root/devnode` (first
conjunct, for every starting state, rule and remove event).  The remove scan
walks only the top level of the root, so a symlink the add action created in
a subdirectory of the root survives the paired remove and still stores the
node's path as target (second conjunct, at the concrete add→remove run). -/
theorem c7_remove_clears_node (fs : Fs) (rule : Rule) (ev : List (String × String))
    (d : String)
    (hA : findProp ev "ACTION" = some "remove") (hD : findProp ev "DEVNAME" = some d) :
    fsLookup (executeRuleActions rule ev fs).1 (pathJoin rootPath d) ≠ some FsEntry.node
    ∧ fsLookup c7FinalFs (rootPath ++ ["a", "link"])
        = some (FsEntry.link (rootPath ++ ["a", "node"])) := by
  refine ⟨?_, by decide⟩
  unfold executeRuleActions
  rw [hD, hA]
  simp only [reduceIte]
  exact removeDeviceNode_not_node _ _

/-- C7 witness: the theorem applied to the concrete remove event on the state
the add action produced. -/
theorem c7_witness :
    fsLookup (executeRuleActions ruleC7 evRemoveC7 c7AfterAdd).1
        (pathJoin rootPath "a/node") ≠ some FsEntry.node
    ∧ fsLookup c7FinalFs (rootPath ++ ["a", "link"])
        = some (FsEntry.link (rootPath ++ ["a", "node"])) :=
  c7_remove_clears_node c7AfterAdd ruleC7 evRemoveC7 "a/node" (by decide) (by decide)

/-- C7 counterexample: starting from the empty root, the add action for
devnode `a/node` creates the symlink `a/link` pointing at the node; the
paired remove deletes the node but — scanning only the top level of the root
— leaves `a/link` in place, a symlink still pointing at the removed node's
path.  The claim's final state therefore contains a symlink to the node. -/
theorem c7_counterexample :
    fsLookup c7AfterAdd (rootPath ++ ["a", "link"])
        = some (FsEntry.link (rootPath ++ ["a", "node"]))
    ∧ fsLookup c7FinalFs (rootPath ++ ["a", "link"])
        = some (FsEntry.link (rootPath ++ ["a", "node"]))
    ∧ fsLookup c7FinalFs (rootPath ++ ["a", "node"]) = none := by
  refine ⟨by decide, by decide, by decide⟩

/-! ## Claim C8 — the caller's DEVNAME is preserved -/

theorem lookupA_ueventLineStep_devname (m : List (String × String)) (line : List Char) :
    lookupA (ueventLineStep m line) "DEVNAME" = lookupA m "DEVNAME" := by
  unfold ueventLineStep
  cases hsp : splitOncePair '=' line with
  | none => rfl
  | some kv =>
    obtain ⟨k, v⟩ := kv
    by_cases hk : (⟨k⟩ : String) = "DEVNAME"
    · simp [hk]
    · have h2 : ¬ (("DEVNAME" : String) = (⟨k⟩ : String)) := fun hc => hk hc.symm
      simp [hk, lookupA_mapInsert, h2]

theorem lookupA_fold_ueventLineStep (lines : List (List Char)) (m : List (String × String)) :
    lookupA (lines.foldl ueventLineStep m) "DEVNAME" = lookupA m "DEVNAME" := by
  induction lines generalizing m with
  | nil => rfl
  | cons l ls ih => rw [List.foldl_cons, ih, lookupA_ueventLineStep_devname]

theorem lookupA_ueventFold_devname (m : List (String × String)) (o : Option String) :
    lookupA (ueventFold m o) "DEVNAME" = lookupA m "DEVNAME" := by
  cases o <;> simp [ueventFold, lookupA_fold_ueventLineStep]

theorem lookupA_optInsert_ne (m : List (String × String)) (k k2 : String) (o : Option String)
    (h : ¬ k2 = k) : lookupA (optInsert m k o) k2 = lookupA m k2 := by
  cases o <;> simp [optInsert, lookupA_mapInsert, h]

theorem getDeviceInfo_meta_branch (w : SysWorld) (p : String) (md : DevMeta)
    (hE : w.pathExists p = true) (hM : w.metadata p = some md) :
    getDeviceInfo w p =
      if md.isCharDevice then charBranch w p md else fallbackBranch w p := by
  unfold getDeviceInfo
  rw [hE, hM]
  rfl

theorem getDeviceInfo_no_meta_branch (w : SysWorld) (p : String)
    (hE : w.pathExists p = true) (hM : w.metadata p = none) :
    getDeviceInfo w p = fallbackBranch w p := by
  unfold getDeviceInfo
  rw [hE, hM]
  rfl

/-- C8: whenever `get_device_info` is queried on a character device (the stat
metadata reports a char device) and returns a record, that record maps
`DEVNAME` to the caller-supplied device path verbatim; a `DEVNAME` line in
the sysfs `uevent` file never overrides it. -/
theorem c8_devname_preserved (w : SysWorld) (devpath : String) (md : DevMeta)
    (info : List (String × String))
    (hM : w.metadata devpath = some md) (hC : md.isCharDevice = true)
    (hI : getDeviceInfo w devpath = some info) :
    lookupA info "DEVNAME" = some devpath := by
  cases hE : w.pathExists devpath with
  | false => unfold getDeviceInfo at hI; rw [hE] at hI; simp at hI
  | true =>
    rw [getDeviceInfo_meta_branch w devpath md hE hM] at hI
    simp only [hC, if_true] at hI
    cases hS : w.pathExists (charSysPath md) with
    | false => simp [charBranch, hS] at hI
    | true =>
      simp only [charBranch, hS, Bool.not_true, Bool.false_eq_true, if_false,
        Option.some.injEq] at hI
      rw [← hI]
      rw [lookupA_mapInsert, if_neg (by decide)]
      rw [lookupA_optInsert_ne _ _ _ _ (by decide)]
      rw [lookupA_optInsert_ne _ _ _ _ (by decide)]
      rw [lookupA_optInsert_ne _ _ _ _ (by decide)]
      rw [lookupA_optInsert_ne _ _ _ _ (by decide)]
      rw [lookupA_ueventFold_devname]
      rw [lookupA_mapInsert, if_pos rfl]

/-- C8 witness: the theorem applied to the concrete world whose `uevent` file
carries `DEVNAME=other`; the record still maps `DEVNAME` to `/dev/x`. -/
theorem c8_witness : lookupA infoC8 "DEVNAME" = some "/dev/x" :=
  c8_devname_preserved wC8 "/dev/x" mdC8 infoC8 (by decide) (by decide) (by decide)

/-! ## Claim C9 — when the query yields a record -/

/-- C9 (amended): `get_device_info` yields a record only when the path exists
and either (a) it is a character device whose `/sys/dev/char/M:m` counterpart
exists, or (b) the path has an adjacent `uevent` entry (the sysfs-directory
branch).  An existing path that is neither yields no record — but (b) means
the claim's "only character devices produce a record" is too strong. -/
theorem c9_record_source (w : SysWorld) (p : String)
    (h : (getDeviceInfo w p).isSome = true) :
    w.pathExists p = true
    ∧ ((∃ md, w.metadata p = some md ∧ md.isCharDevice = true ∧
          w.pathExists (charSysPath md) = true)
        ∨ w.pathExists (joinPath p "uevent") = true) := by
  cases hE : w.pathExists p with
  | false => unfold getDeviceInfo at h; rw [hE] at h; simp at h
  | true =>
    refine ⟨rfl, ?_⟩
    cases hM : w.metadata p with
    | none =>
      rw [getDeviceInfo_no_meta_branch w p hE hM] at h
      right
      unfold fallbackBranch at h
      cases hU : w.pathExists (joinPath p "uevent") with
      | false => rw [hU] at h; simp at h
      | true => rfl
    | some md =>
      rw [getDeviceInfo_meta_branch w p md hE hM] at h
      cases hC : md.isCharDevice with
      | false =>
        simp only [hC, Bool.false_eq_true, if_false] at h
        right
        unfold fallbackBranch at h
        cases hU : w.pathExists (joinPath p "uevent") with
        | false => rw [hU] at h; simp at h
        | true => rfl
      | true =>
        simp only [hC, if_true] at h
        left
        cases hS : w.pathExists (charSysPath md) with
        | false => simp [charBranch, hS] at h
        | true => exact ⟨md, rfl, hC, hS⟩

/-- C9 witness: the theorem applied to the character-device world. -/
theorem c9_witness :
    wC8.pathExists "/dev/x" = true
    ∧ ((∃ md, wC8.metadata "/dev/x" = some md ∧ md.isCharDevice = true ∧
          wC8.pathExists (charSysPath md) = true)
        ∨ wC8.pathExists (joinPath "/dev/x" "uevent") = true) :=
  c9_record_source wC8 "/dev/x" (by decide)

/-- C9 counterexample: the path `d` exists and is not a character (or block)
device — its metadata reports a plain directory — yet `get_device_info`
produces a record, through the sysfs-directory `uevent` branch.  This
contradicts the claim that no record is produced for an existing
non-device path. -/
theorem c9_counterexample :
    (getDeviceInfo wC9 "d").isSome = true
    ∧ wC9.metadata "d" = some dirMetaC9
    ∧ dirMetaC9.isCharDevice = false := by
  refine ⟨by decide, by decide, by decide⟩

end RustUdev
